import Mathlib

/-!
Verification of the token-tracker service (`bot.py`): a shallow embedding of
the `TokenTracker` class and its Flask API layer, followed by theorems that
check the natural-language specification against the embedded code.

Modelling conventions:
* `time.time()` values are `Nat` time-stamps passed in as `now`.
* Upstream calls (`balanceOf`, the Etherscan HTTP request, the three token
  metadata calls) are modelled as explicit `Option`-valued inputs; `none`
  models any raised exception (network failure, timeout, missing JSON key).
* Python `float` arithmetic is modelled exactly over `ℚ`.
* `Web3.to_checksum_address` produces a case-canonical form of the address;
  since every comparison made with its output in the code is case-insensitive
  (`.lower()` or dictionary keying by the canonical form), it is modelled by
  `String.toLower`, which is likewise a case-canonical form.
* Python dictionaries are association lists with first-key-wins lookup.
-/

namespace TokenTracker

/-- One transfer record of the Etherscan `tokentx` answer: fields `from`,
`to`, `value`, `timeStamp` (`value` and `timeStamp` arrive as decimal strings
and are only ever used through `int(...)`, so they are modelled as `Nat`). -/
structure Tx where
  fromAddr : String
  toAddr : String
  value : Nat
  timeStamp : Nat
deriving DecidableEq

/-- The JSON envelope returned by the Etherscan endpoint: a `status` string
and an optional `result` list (`none` models a missing `result` key). -/
structure EtherscanResponse where
  status : String
  result : Option (List Tx)
deriving DecidableEq

/-- The token-info dictionary built by `get_token_info`. -/
structure TokenInfo where
  symbol : String
  name : String
  totalSupply : ℚ
deriving DecidableEq

/-- The raw answers of the three metadata contract calls
(`symbol()`, `name()`, `totalSupply()`). -/
structure TokenInfoRaw where
  symbol : String
  name : String
  totalSupply : Nat
deriving DecidableEq

/-- The mutable state of a `TokenTracker` instance: `decimals` (fetched once
in `__init__`), the three caches and the single shared cache time-stamp. -/
structure TrackerState where
  decimals : Nat
  balanceCache : List (String × ℚ)
  txCache : List Tx
  tokenInfoCache : Option TokenInfo
  lastCacheUpdate : Nat
deriving DecidableEq

/-- `self._cache_lifetime = 300`, hard-coded in `__init__`. -/
def cache_lifetime : Nat := 300

/-- The all-zero burn address excluded from holder accounting. -/
def zeroAddress : String := "0x0000000000000000000000000000000000000000"

/-- Case canonicalisation performed by `Web3.to_checksum_address`; see the
file comment for why lower-casing is an adequate canonical form. -/
def normalizeAddr (a : String) : String := a.toLower

/-- `TokenTracker._is_cache_valid`: `time.time() - self._last_cache_update <
self._cache_lifetime`. -/
def is_cache_valid (now : Nat) (s : TrackerState) : Bool :=
  now - s.lastCacheUpdate < cache_lifetime

/-- `TokenTracker.format_balance`: `balance / (10 ** self.decimals)`. -/
def format_balance (s : TrackerState) (balance : Nat) : ℚ :=
  (balance : ℚ) / 10 ^ s.decimals

/-- Python dictionary assignment `d[k] = v` as seen by `List.lookup`. -/
def cacheInsert (k : String) (v : ℚ) (c : List (String × ℚ)) : List (String × ℚ) :=
  (k, v) :: c.filter (fun p => p.1 ≠ k)

/-- `TokenTracker.get_balance`: checksum the address, serve it from the
balance cache when the shared time-stamp is valid and the entry exists,
otherwise call `balanceOf` (the `upstream` argument, keyed by the
canonicalised address), store and return the formatted result, or return `0`
when the call raises. -/
def get_balance (now : Nat) (upstream : String → Option Nat) (address : String)
    (s : TrackerState) : ℚ × TrackerState :=
  let a := normalizeAddr address
  if is_cache_valid now s ∧ (s.balanceCache.lookup a).isSome then
    ((s.balanceCache.lookup a).getD 0, s)
  else
    match upstream a with
    | some raw =>
        let fb := format_balance s raw
        (fb, { s with balanceCache := cacheInsert a fb s.balanceCache,
                      lastCacheUpdate := now })
    | none => (0, s)

/-- `TokenTracker.get_balance_batch`: sequential `get_balance` per address. -/
def get_balance_batch (now : Nat) (upstream : String → Option Nat) :
    List String → TrackerState → List ℚ × TrackerState
  | [], s => ([], s)
  | a :: rest, s =>
      let r := get_balance now upstream a s
      let rr := get_balance_batch now upstream rest r.2
      (r.1 :: rr.1, rr.2)

/-- `TokenTracker._get_token_transactions`: serve the cached log when the
shared time-stamp is valid and the stored log is truthy (non-empty);
otherwise perform the HTTP request, and on `status == '1'` with a `result`
field store and return it; every failure path returns `[]`. -/
def get_token_transactions (now : Nat) (upstream : Option EtherscanResponse)
    (s : TrackerState) : List Tx × TrackerState :=
  if is_cache_valid now s ∧ s.txCache ≠ [] then (s.txCache, s)
  else
    match upstream with
    | none => ([], s)
    | some data =>
        if data.status = "1" then
          match data.result with
          | some txs => (txs, { s with txCache := txs, lastCacheUpdate := now })
          | none => ([], s)
        else ([], s)

/-- The address pool `get_top_holders` draws from: every `from` and `to` of
the fetched log, deduplicated (Python builds a `set`, whose iteration order
is unspecified; any fixed deduplication order is a faithful model). -/
def tx_addresses (txs : List Tx) : List String :=
  (txs.flatMap (fun tx => [tx.fromAddr, tx.toAddr])).dedup

/-- The holder-collection loop of `get_top_holders`: skip the zero address,
resolve each balance through `get_balance`, keep only positive balances. -/
def collectHolders (now : Nat) (balUp : String → Option Nat) :
    List String → List (String × ℚ) → TrackerState →
    List (String × ℚ) × TrackerState
  | [], acc, s => (acc, s)
  | a :: rest, acc, s =>
      if a = zeroAddress then collectHolders now balUp rest acc s
      else
        let r := get_balance now balUp a s
        if 0 < r.1 then collectHolders now balUp rest (acc ++ [(a, r.1)]) r.2
        else collectHolders now balUp rest acc r.2

/-- `sorted(holders, key=lambda x: x[1], reverse=True)`. -/
def sortHoldersDesc (l : List (String × ℚ)) : List (String × ℚ) :=
  List.insertionSort (fun x y => y.2 ≤ x.2) l

/-- `TokenTracker.get_top_holders`. -/
def get_top_holders (n : Nat) (now : Nat) (txUp : Option EtherscanResponse)
    (balUp : String → Option Nat) (s : TrackerState) :
    List (String × ℚ) × TrackerState :=
  let r := get_token_transactions now txUp s
  if r.1 = [] then ([], r.2)
  else
    let c := collectHolders now balUp (tx_addresses r.1) [] r.2
    ((sortHoldersDesc c.1).take n, c.2)

/-- The per-address body of the `get_top_with_transactions` loop: a new,
non-zero address with positive balance is recorded with the time-stamp of
the transaction currently being processed. -/
def processActivityAddr (now : Nat) (balUp : String → Option Nat) (t : Nat)
    (a : String) (hd : List (String × ℚ × Nat)) (s : TrackerState) :
    List (String × ℚ × Nat) × TrackerState :=
  if (hd.lookup a).isNone ∧ a ≠ zeroAddress then
    let r := get_balance now balUp a s
    if 0 < r.1 then (hd ++ [(a, r.1, t)], r.2) else (hd, r.2)
  else (hd, s)

/-- The transaction loop of `get_top_with_transactions`: per record the
recipient is examined before the sender. -/
def collectActivity (now : Nat) (balUp : String → Option Nat) :
    List Tx → List (String × ℚ × Nat) → TrackerState →
    List (String × ℚ × Nat) × TrackerState
  | [], hd, s => (hd, s)
  | tx :: rest, hd, s =>
      let r1 := processActivityAddr now balUp tx.timeStamp tx.toAddr hd s
      let r2 := processActivityAddr now balUp tx.timeStamp tx.fromAddr r1.1 r1.2
      collectActivity now balUp rest r2.1 r2.2

/-- The descending-by-balance sort of `get_top_with_transactions`
(the recorded `last_tx` string is modelled by the raw time-stamp). -/
def sortActivityDesc (l : List (String × ℚ × Nat)) : List (String × ℚ × Nat) :=
  List.insertionSort (fun x y => y.2.1 ≤ x.2.1) l

/-- `TokenTracker.get_top_with_transactions`. -/
def get_top_with_transactions (n : Nat) (now : Nat)
    (txUp : Option EtherscanResponse) (balUp : String → Option Nat)
    (s : TrackerState) : List (String × ℚ × Nat) × TrackerState :=
  let r := get_token_transactions now txUp s
  if r.1 = [] then ([], r.2)
  else
    let c := collectActivity now balUp r.1 [] r.2
    ((sortActivityDesc c.1).take n, c.2)

/-- `TokenTracker.get_token_info`: serve the cached dictionary when the
shared time-stamp is valid and a (truthy) cached value exists; otherwise
perform the three metadata calls, cache and return the dictionary; any
raised exception returns the empty dictionary, modelled as `none`. -/
def get_token_info (now : Nat) (upstream : Option TokenInfoRaw)
    (s : TrackerState) : Option TokenInfo × TrackerState :=
  if is_cache_valid now s ∧ s.tokenInfoCache.isSome then (s.tokenInfoCache, s)
  else
    match upstream with
    | some raw =>
        let info : TokenInfo :=
          ⟨raw.symbol, raw.name, format_balance s raw.totalSupply⟩
        (some info, { s with tokenInfoCache := some info,
                             lastCacheUpdate := now })
    | none => (none, s)

/-- Division as Python evaluates it: `none` models the `ZeroDivisionError`
raised on a zero divisor. -/
def checkedDiv (a b : ℚ) : Option ℚ :=
  if b = 0 then none else some (a / b)

/-- The dictionary built by `get_token_stats` (`info = none` models the
spread of an empty `basic_info` dictionary). -/
structure TokenStats where
  info : Option TokenInfo
  unique_holders : Nat
  total_held : ℚ
  average_balance : Option ℚ
deriving DecidableEq

/-- `TokenTracker.get_token_stats`: token info plus `get_top_holders(100)`,
with the average guarded by `if unique_holders > 0`. -/
def get_token_stats (now : Nat) (infoUp : Option TokenInfoRaw)
    (txUp : Option EtherscanResponse) (balUp : String → Option Nat)
    (s : TrackerState) : TokenStats × TrackerState :=
  let ri := get_token_info now infoUp s
  let rh := get_top_holders 100 now txUp balUp ri.2
  let total := (rh.1.map (fun p => p.2)).sum
  let u := rh.1.length
  ({ info := ri.1, unique_holders := u, total_held := total,
     average_balance := if 0 < u then checkedDiv total (u : ℚ) else some 0 },
   rh.2)

/-- One entry of the `get_address_history` answer (`type` is `"receive"`
when the record's `to` matches the queried address, else `"send"`; the
formatted time string is modelled by the raw time-stamp). -/
structure HistoryEntry where
  type : String
  counterparty : String
  amount : ℚ
  timeStamp : Nat
deriving DecidableEq

/-- The case-insensitive sender/recipient match of `get_address_history`. -/
def historyMatches (address : String) (tx : Tx) : Bool :=
  tx.toAddr.toLower == address.toLower || tx.fromAddr.toLower == address.toLower

/-- The record-to-entry conversion of `get_address_history`. -/
def historyEntry (address : String) (s : TrackerState) (tx : Tx) : HistoryEntry :=
  if tx.toAddr.toLower == address.toLower then
    ⟨"receive", tx.fromAddr, format_balance s tx.value, tx.timeStamp⟩
  else
    ⟨"send", tx.toAddr, format_balance s tx.value, tx.timeStamp⟩

/-- The collection loop of `get_address_history`: append each matching
record, then break as soon as `len(address_txs) >= limit` (the break test
runs on every iteration, after the optional append). -/
def historyLoop (address : String) (limit : Int) (s : TrackerState) :
    List Tx → List HistoryEntry → List HistoryEntry
  | [], acc => acc
  | tx :: rest, acc =>
      let acc2 := if historyMatches address tx
                  then acc ++ [historyEntry address s tx] else acc
      if limit ≤ (acc2.length : Int) then acc2
      else historyLoop address limit s rest acc2

/-- `TokenTracker.get_address_history`. -/
def get_address_history (now : Nat) (txUp : Option EtherscanResponse)
    (address : String) (limit : Int) (s : TrackerState) :
    List HistoryEntry × TrackerState :=
  let r := get_token_transactions now txUp s
  let a := normalizeAddr address
  (historyLoop a limit r.2 r.1 [], r.2)

/-- A Flask answer: `ok` is a 200 JSON payload, `clientError` a 400 one. -/
inductive ApiResponse (α : Type) where
  | ok : α → ApiResponse α
  | clientError : String → ApiResponse α
deriving DecidableEq

/-- Whether an answer is a 200 one. -/
def ApiResponse.isOk {α : Type} : ApiResponse α → Bool
  | .ok _ => true
  | .clientError _ => false

/-- Route `/get_top` (`api_get_top`): reject `n <= 0`, else answer with
`get_top_holders(n)`. -/
def api_get_top (n : Int) (now : Nat) (txUp : Option EtherscanResponse)
    (balUp : String → Option Nat) (s : TrackerState) :
    ApiResponse (List (String × ℚ)) × TrackerState :=
  if n ≤ 0 then (.clientError "Parameter n must be positive", s)
  else
    let r := get_top_holders n.toNat now txUp balUp s
    (.ok r.1, r.2)

/-- Route `/get_top_with_transactions`: reject `n <= 0`, else answer with
`get_top_with_transactions(n)`. -/
def api_get_top_with_transactions (n : Int) (now : Nat)
    (txUp : Option EtherscanResponse) (balUp : String → Option Nat)
    (s : TrackerState) : ApiResponse (List (String × ℚ × Nat)) × TrackerState :=
  if n ≤ 0 then (.clientError "Parameter n must be positive", s)
  else
    let r := get_top_with_transactions n.toNat now txUp balUp s
    (.ok r.1, r.2)

/-- Route `/address_history` (`api_address_history`): the `limit` parameter
is forwarded unvalidated. -/
def api_address_history (address : String) (limit : Int) (now : Nat)
    (txUp : Option EtherscanResponse) (s : TrackerState) :
    ApiResponse (List HistoryEntry) × TrackerState :=
  let r := get_address_history now txUp address limit s
  (.ok r.1, r.2)

/-- Whether a transfer record touches an address (as sender or recipient,
by the literal strings the aggregation loop compares). -/
def touchesAddr (a : String) (tx : Tx) : Bool :=
  tx.toAddr == a || tx.fromAddr == a

/-- The time-stamp of the first record of a log touching an address. -/
def firstTouchTime (a : String) : List Tx → Option Nat
  | [] => none
  | tx :: rest =>
      if touchesAddr a tx then some tx.timeStamp else firstTouchTime a rest

/-! ### Association-list lemmas -/

theorem lookup_append_some {β : Type} {l : List (String × β)} {a : String} {v : β}
    (h : l.lookup a = some v) (e : List (String × β)) :
    (l ++ e).lookup a = some v := by
  induction l with
  | nil => simp [List.lookup] at h
  | cons p rest ih =>
      obtain ⟨k, w⟩ := p
      by_cases hk : a = k
      · subst hk
        simp [List.lookup] at h ⊢
        exact h
      · have hb : (a == k) = false := beq_eq_false_iff_ne.mpr hk
        simp only [List.cons_append, List.lookup, hb] at h ⊢
        exact ih h

theorem lookup_append_of_none {β : Type} {l : List (String × β)} {a : String}
    (h : l.lookup a = none) (e : List (String × β)) :
    (l ++ e).lookup a = e.lookup a := by
  induction l with
  | nil => simp
  | cons p rest ih =>
      obtain ⟨k, w⟩ := p
      by_cases hk : a = k
      · subst hk
        simp [List.lookup] at h
      · have hb : (a == k) = false := beq_eq_false_iff_ne.mpr hk
        simp only [List.lookup, hb] at h
        simp only [List.cons_append, List.lookup, hb]
        exact ih h

theorem lookup_of_append_none {β : Type} {l e : List (String × β)} {a : String}
    (h : (l ++ e).lookup a = none) : l.lookup a = none := by
  cases hl : l.lookup a with
  | none => rfl
  | some v => rw [lookup_append_some hl e] at h; exact absurd h (by simp)

theorem lookup_isSome_append {β : Type} {l : List (String × β)} {a : String}
    (h : (l.lookup a).isSome = true) (e : List (String × β)) :
    ((l ++ e).lookup a).isSome = true := by
  cases hl : l.lookup a with
  | none => rw [hl] at h; simp at h
  | some v => rw [lookup_append_some hl e]; rfl

theorem lookup_cacheInsert (k q : String) (v : ℚ) (c : List (String × ℚ)) :
    (cacheInsert k v c).lookup q = if q = k then some v else c.lookup q := by
  unfold cacheInsert
  by_cases hq : q = k
  · subst hq
    simp [List.lookup]
  · have hb : (q == k) = false := beq_eq_false_iff_ne.mpr hq
    simp only [List.lookup, hb, if_neg hq]
    induction c with
    | nil => simp
    | cons p rest ih =>
        obtain ⟨k2, w⟩ := p
        by_cases h2 : k2 = k
        · subst h2
          rw [show (((k2, w) :: rest).filter (fun p => p.1 ≠ k2))
                = rest.filter (fun p => p.1 ≠ k2) by simp [List.filter_cons]]
          rw [show ((k2, w) :: rest).lookup q = rest.lookup q by
                simp [List.lookup, hb]]
          exact ih
        · rw [show (((k2, w) :: rest).filter (fun p => p.1 ≠ k))
                = (k2, w) :: rest.filter (fun p => p.1 ≠ k) by
                simp [List.filter_cons, h2]]
          by_cases hq2 : q = k2
          · subst hq2
            simp [List.lookup]
          · have hb2 : (q == k2) = false := beq_eq_false_iff_ne.mpr hq2
            simp only [List.lookup, hb2]
            exact ih

/-! ### First-touch lemmas -/

theorem firstTouchTime_append (a : String) (l e : List Tx) :
    firstTouchTime a (l ++ e) =
      match firstTouchTime a l with
      | some t => some t
      | none => firstTouchTime a e := by
  induction l with
  | nil => simp [firstTouchTime]
  | cons tx rest ih =>
      cases ht : touchesAddr a tx with
      | true => simp [firstTouchTime, ht]
      | false => simp [firstTouchTime, ht, ih]

theorem firstTouchTime_append_some {a : String} {l : List Tx} {t : Nat}
    (h : firstTouchTime a l = some t) (e : List Tx) :
    firstTouchTime a (l ++ e) = some t := by
  rw [firstTouchTime_append, h]

theorem firstTouchTime_append_of_none {a : String} {l : List Tx}
    (h : firstTouchTime a l = none) (e : List Tx) :
    firstTouchTime a (l ++ e) = firstTouchTime a e := by
  rw [firstTouchTime_append, h]

/-- In a log sorted newest-first, the first record touching an address has
the greatest time-stamp among all records touching it. -/
theorem firstTouchTime_sorted_max {a : String} {l : List Tx} {t : Nat}
    (hsort : List.Pairwise (fun x y : Tx => y.timeStamp ≤ x.timeStamp) l)
    (h : firstTouchTime a l = some t) :
    ∀ tx ∈ l, touchesAddr a tx = true → tx.timeStamp ≤ t := by
  induction l with
  | nil => simp [firstTouchTime] at h
  | cons x rest ih =>
      obtain ⟨hx, hrest⟩ := List.pairwise_cons.mp hsort
      intro tx hmem htouch
      cases hxt : touchesAddr a x with
      | true =>
          rw [firstTouchTime, if_pos hxt] at h
          obtain rfl : x.timeStamp = t := by injection h
          rcases List.mem_cons.mp hmem with rfl | hmem2
          · exact le_refl _
          · exact hx tx hmem2
      | false =>
          rw [firstTouchTime, if_neg (by simp [hxt])] at h
          rcases List.mem_cons.mp hmem with rfl | hmem2
          · rw [hxt] at htouch; exact absurd htouch (by simp)
          · exact ih hrest h tx hmem2 htouch

/-! ### `get_balance` in a fresh-time-stamp state -/

/-- The balance `get_balance` resolves for an address when the shared cache
time-stamp is currently valid: the cached value if the (canonicalised)
address is cached, else the formatted upstream answer, else `0`. -/
def stableVal (d : Nat) (balUp : String → Option Nat) (c : List (String × ℚ))
    (a : String) : ℚ :=
  match c.lookup (normalizeAddr a) with
  | some v => v
  | none =>
      match balUp (normalizeAddr a) with
      | some raw => (raw : ℚ) / 10 ^ d
      | none => 0

theorem gb_spec (now : Nat) (balUp : String → Option Nat) (address : String)
    (st : TrackerState) (hv : is_cache_valid now st = true) :
    (get_balance now balUp address st).1
        = stableVal st.decimals balUp st.balanceCache address ∧
    is_cache_valid now (get_balance now balUp address st).2 = true ∧
    (get_balance now balUp address st).2.decimals = st.decimals ∧
    (∀ b, stableVal st.decimals balUp
        (get_balance now balUp address st).2.balanceCache b
        = stableVal st.decimals balUp st.balanceCache b) ∧
    (get_balance now balUp address st).2.txCache = st.txCache ∧
    (get_balance now balUp address st).2.tokenInfoCache = st.tokenInfoCache := by
  cases hl : st.balanceCache.lookup (normalizeAddr address) with
  | some v =>
      have : get_balance now balUp address st = (v, st) := by
        simp [get_balance, hv, hl]
      rw [this]
      refine ⟨?_, hv, rfl, fun b => rfl, rfl, rfl⟩
      simp [stableVal, hl]
  | none =>
      cases hup : balUp (normalizeAddr address) with
      | some raw =>
          have : get_balance now balUp address st =
              (format_balance st raw,
               { st with balanceCache := cacheInsert (normalizeAddr address)
                           (format_balance st raw) st.balanceCache,
                         lastCacheUpdate := now }) := by
            simp [get_balance, hl, hup]
          rw [this]
          refine ⟨?_, ?_, rfl, ?_, rfl, rfl⟩
          · simp [stableVal, hl, hup, format_balance]
          · simp [is_cache_valid, cache_lifetime]
          · intro b
            simp only [stableVal]
            rw [lookup_cacheInsert]
            by_cases hb : normalizeAddr b = normalizeAddr address
            · rw [if_pos hb, hb, hl, hup]
              simp [format_balance]
            · rw [if_neg hb]
      | none =>
          have : get_balance now balUp address st = (0, st) := by
            simp [get_balance, hl, hup]
          rw [this]
          refine ⟨?_, hv, rfl, fun b => rfl, rfl, rfl⟩
          simp [stableVal, hl, hup]

theorem pa_spec (now : Nat) (balUp : String → Option Nat) (t : Nat) (a : String)
    (hd : List (String × ℚ × Nat)) (st : TrackerState) (d : Nat) (V : String → ℚ)
    (hv : is_cache_valid now st = true) (hdec : st.decimals = d)
    (hV : ∀ b, stableVal d balUp st.balanceCache b = V b) :
    is_cache_valid now (processActivityAddr now balUp t a hd st).2 = true ∧
    (processActivityAddr now balUp t a hd st).2.decimals = d ∧
    (∀ b, stableVal d balUp (processActivityAddr now balUp t a hd st).2.balanceCache b = V b) ∧
    ((processActivityAddr now balUp t a hd st).1 = hd ∨
      (hd.lookup a = none ∧ a ≠ zeroAddress ∧ 0 < V a ∧
        (processActivityAddr now balUp t a hd st).1 = hd ++ [(a, V a, t)])) ∧
    (a ≠ zeroAddress → 0 < V a →
      (((processActivityAddr now balUp t a hd st).1.lookup a).isSome = true)) := by
  obtain ⟨g1, g2, g3, g4, g5, g6⟩ := gb_spec now balUp a st hv
  subst hdec
  have hbal : (get_balance now balUp a st).1 = V a := by rw [g1, hV]
  have hVnext : ∀ b,
      stableVal st.decimals balUp (get_balance now balUp a st).2.balanceCache b = V b := by
    intro b; rw [g4, hV]
  by_cases hcond : (hd.lookup a).isNone ∧ a ≠ zeroAddress
  · by_cases hpos : 0 < (get_balance now balUp a st).1
    · have hr : processActivityAddr now balUp t a hd st
          = (hd ++ [(a, (get_balance now balUp a st).1, t)],
             (get_balance now balUp a st).2) := by
        simp only [processActivityAddr, if_pos hcond, if_pos hpos]
      rw [hr]
      have hln : hd.lookup a = none := Option.isNone_iff_eq_none.mp hcond.1
      refine ⟨g2, ?_, hVnext, ?_, ?_⟩
      · exact g3
      · right
        exact ⟨hln, hcond.2, hbal ▸ hpos, by rw [hbal]⟩
      · intro _ _
        rw [lookup_append_of_none hln]
        simp [List.lookup]
    · have hr : processActivityAddr now balUp t a hd st
          = (hd, (get_balance now balUp a st).2) := by
        simp only [processActivityAddr, if_pos hcond, if_neg hpos]
      rw [hr]
      refine ⟨?_, g3, hVnext, Or.inl rfl, ?_⟩
      · exact g2
      · intro _ hVa
        exact absurd (hbal ▸ hVa) hpos
  · have hr : processActivityAddr now balUp t a hd st = (hd, st) := by
      simp only [processActivityAddr, if_neg hcond]
    rw [hr]
    refine ⟨hv, rfl, hV, Or.inl rfl, ?_⟩
    intro hz _
    rcases not_and_or.mp hcond with h | h
    · cases hl : hd.lookup a with
      | none => exact absurd (by simp [hl]) h
      | some v => simp [hl]
    · exact absurd hz h

/-- Loop invariant of `get_top_with_transactions`: every recorded entry's
time-stamp is the time-stamp of the first record of the log that touches the
entry's address (first-seen-wins, never overwritten). -/
theorem collectActivity_first_touch (now : Nat) (balUp : String → Option Nat)
    (V : String → ℚ) :
    ∀ (l done : List Tx) (hd : List (String × ℚ × Nat)) (st : TrackerState),
      is_cache_valid now st = true →
      (∀ b, stableVal st.decimals balUp st.balanceCache b = V b) →
      (∀ p ∈ hd, firstTouchTime p.1 done = some p.2.2) →
      (∀ b, hd.lookup b = none → b ≠ zeroAddress → 0 < V b →
          firstTouchTime b done = none) →
      ∀ p ∈ (collectActivity now balUp l hd st).1,
        firstTouchTime p.1 (done ++ l) = some p.2.2
  | [], done, hd, st => by
      intro _ _ hd1 _ p hp
      simp only [collectActivity] at hp
      simpa using hd1 p hp
  | tx :: rest, done, hd, st => by
      intro hv hV hd1 hd2
      obtain ⟨A1, A2, A3, A4, A5⟩ :=
        pa_spec now balUp tx.timeStamp tx.toAddr hd st st.decimals V hv rfl hV
      set r1 := processActivityAddr now balUp tx.timeStamp tx.toAddr hd st with hr1
      obtain ⟨B1, B2, B3, B4, B5⟩ :=
        pa_spec now balUp tx.timeStamp tx.fromAddr r1.1 r1.2 st.decimals V A1 A2 A3
      set r2 := processActivityAddr now balUp tx.timeStamp tx.fromAddr r1.1 r1.2
        with hr2
      have step1_entry : ∀ p ∈ r1.1,
          firstTouchTime p.1 (done ++ [tx]) = some p.2.2 := by
        intro p hp
        rcases A4 with hA | ⟨hAln, hAz, hApos, hAeq⟩
        · rw [hA] at hp
          exact firstTouchTime_append_some (hd1 p hp) [tx]
        · rw [hAeq] at hp
          rcases List.mem_append.mp hp with hp1 | hp2
          · exact firstTouchTime_append_some (hd1 p hp1) [tx]
          · have hpe : p = (tx.toAddr, V tx.toAddr, tx.timeStamp) := by
              simpa using hp2
            subst hpe
            have hdone := hd2 _ hAln hAz hApos
            rw [firstTouchTime_append_of_none hdone]
            simp [firstTouchTime, touchesAddr]
      have hd1' : ∀ p ∈ r2.1,
          firstTouchTime p.1 (done ++ [tx]) = some p.2.2 := by
        intro p hp
        rcases B4 with hB | ⟨hBln, hBz, hBpos, hBeq⟩
        · rw [hB] at hp
          exact step1_entry p hp
        · rw [hBeq] at hp
          rcases List.mem_append.mp hp with hp1 | hp2
          · exact step1_entry p hp1
          · have hpe : p = (tx.fromAddr, V tx.fromAddr, tx.timeStamp) := by
              simpa using hp2
            subst hpe
            have hhd : hd.lookup tx.fromAddr = none := by
              rcases A4 with hA | ⟨_, _, _, hAeq⟩
              · rw [hA] at hBln; exact hBln
              · rw [hAeq] at hBln; exact lookup_of_append_none hBln
            have hdone := hd2 _ hhd hBz hBpos
            rw [firstTouchTime_append_of_none hdone]
            simp [firstTouchTime, touchesAddr]
      have hd2' : ∀ b, r2.1.lookup b = none → b ≠ zeroAddress → 0 < V b →
          firstTouchTime b (done ++ [tx]) = none := by
        intro b hb hz hpos
        have hb1 : r1.1.lookup b = none := by
          rcases B4 with hB | ⟨_, _, _, hBeq⟩
          · rw [hB] at hb; exact hb
          · rw [hBeq] at hb; exact lookup_of_append_none hb
        have hhd : hd.lookup b = none := by
          rcases A4 with hA | ⟨_, _, _, hAeq⟩
          · rw [hA] at hb1; exact hb1
          · rw [hAeq] at hb1; exact lookup_of_append_none hb1
        have hdone := hd2 b hhd hz hpos
        have hnt : touchesAddr b tx = false := by
          cases hbt : touchesAddr b tx
          · rfl
          · exfalso
            have hor : (tx.toAddr == b) = true ∨ (tx.fromAddr == b) = true := by
              have hx := hbt
              unfold touchesAddr at hx
              exact Bool.or_eq_true_iff.mp hx
            rcases hor with h | h
            · have hbe : tx.toAddr = b := eq_of_beq h
              have hsome := A5 (by rw [hbe]; exact hz) (by rw [hbe]; exact hpos)
              rw [hbe, hb1] at hsome
              simp at hsome
            · have hbe : tx.fromAddr = b := eq_of_beq h
              have hsome := B5 (by rw [hbe]; exact hz) (by rw [hbe]; exact hpos)
              rw [hbe, hb] at hsome
              simp at hsome
        rw [firstTouchTime_append_of_none hdone]
        simp [firstTouchTime, hnt]
      have hgoal := collectActivity_first_touch now balUp V rest (done ++ [tx])
        r2.1 r2.2 B1 (by simp only [B2]; exact B3) hd1' hd2'
      intro p hp
      simp only [collectActivity] at hp
      rw [show done ++ tx :: rest = (done ++ [tx]) ++ rest by simp]
      exact hgoal p hp

theorem gtt_state (now : Nat) (txUp : Option EtherscanResponse) (s : TrackerState) :
    (get_token_transactions now txUp s).2.decimals = s.decimals ∧
    (get_token_transactions now txUp s).2.balanceCache = s.balanceCache ∧
    ((get_token_transactions now txUp s).1 ≠ [] →
      is_cache_valid now (get_token_transactions now txUp s).2 = true) := by
  unfold get_token_transactions
  split
  · next hcond => exact ⟨rfl, rfl, fun _ => hcond.1⟩
  · cases txUp with
    | none => exact ⟨rfl, rfl, fun h => absurd rfl h⟩
    | some data =>
        dsimp only
        by_cases hs : data.status = "1"
        · rw [if_pos hs]
          cases hres : data.result with
          | some txs =>
              refine ⟨rfl, rfl, fun _ => ?_⟩
              simp [is_cache_valid, cache_lifetime]
          | none => exact ⟨rfl, rfl, fun h => absurd rfl h⟩
        · rw [if_neg hs]
          exact ⟨rfl, rfl, fun h => absurd rfl h⟩

/-- C3: provided the fetched transaction log is ordered most recent first,
every entry returned by `get_top_with_transactions(n)` records as its
last-activity time-stamp the time-stamp of the first — hence most recent —
transaction of the log touching the entry's address: the address is recorded
at its first encounter and a later (older) transaction never overwrites it,
so the recorded time-stamp is maximal among all transactions touching the
address. -/
theorem get_top_with_transactions_last_activity
    (n now : Nat) (txUp : Option EtherscanResponse) (balUp : String → Option Nat)
    (s : TrackerState) (a : String) (bal : ℚ) (t : Nat)
    (hsort : List.Pairwise (fun x y : Tx => y.timeStamp ≤ x.timeStamp)
      (get_token_transactions now txUp s).1)
    (hmem : (a, bal, t) ∈ (get_top_with_transactions n now txUp balUp s).1) :
    firstTouchTime a (get_token_transactions now txUp s).1 = some t ∧
    ∀ tx ∈ (get_token_transactions now txUp s).1, touchesAddr a tx = true →
      tx.timeStamp ≤ t := by
  by_cases hemp : (get_token_transactions now txUp s).1 = []
  · unfold get_top_with_transactions at hmem
    rw [if_pos hemp] at hmem
    simp at hmem
  · unfold get_top_with_transactions at hmem
    rw [if_neg hemp] at hmem
    have hmem2 : (a, bal, t) ∈ (collectActivity now balUp
        (get_token_transactions now txUp s).1 []
        (get_token_transactions now txUp s).2).1 :=
      (List.perm_insertionSort _ _).subset (List.mem_of_mem_take hmem)
    obtain ⟨_, _, hvalid⟩ := gtt_state now txUp s
    have hft := collectActivity_first_touch now balUp
        (stableVal (get_token_transactions now txUp s).2.decimals balUp
          (get_token_transactions now txUp s).2.balanceCache)
        (get_token_transactions now txUp s).1 [] []
        (get_token_transactions now txUp s).2
        (hvalid hemp) (fun _ => rfl) (by simp) (fun _ _ _ _ => rfl)
        (a, bal, t) hmem2
    have hft2 : firstTouchTime a (get_token_transactions now txUp s).1 = some t := by
      simpa using hft
    exact ⟨hft2, firstTouchTime_sorted_max hsort hft2⟩

/-- Witness for C3 at a concrete two-record log: the holder `"0xb"` appears
in both records and is recorded with the newer time-stamp `200`. -/
theorem get_top_with_transactions_last_activity_witness :
    List.Pairwise (fun x y : Tx => y.timeStamp ≤ x.timeStamp)
      (get_token_transactions 1000
        (some ⟨"1", some [⟨"0xb", "0xa", 5, 200⟩, ⟨"0xb", "0xc", 1, 100⟩]⟩)
        ⟨0, [], [], none, 0⟩).1 ∧
    ("0xb", (7 : ℚ), 200) ∈ (get_top_with_transactions 10 1000
        (some ⟨"1", some [⟨"0xb", "0xa", 5, 200⟩, ⟨"0xb", "0xc", 1, 100⟩]⟩)
        (fun x => if x = "0xa" then some 5 else if x = "0xb" then some 7
                  else if x = "0xc" then some 1 else none)
        ⟨0, [], [], none, 0⟩).1 ∧
    (firstTouchTime "0xb" (get_token_transactions 1000
        (some ⟨"1", some [⟨"0xb", "0xa", 5, 200⟩, ⟨"0xb", "0xc", 1, 100⟩]⟩)
        ⟨0, [], [], none, 0⟩).1 = some 200 ∧
      ∀ tx ∈ (get_token_transactions 1000
        (some ⟨"1", some [⟨"0xb", "0xa", 5, 200⟩, ⟨"0xb", "0xc", 1, 100⟩]⟩)
        ⟨0, [], [], none, 0⟩).1, touchesAddr "0xb" tx = true →
        tx.timeStamp ≤ 200) :=
  ⟨by decide, by with_unfolding_all decide,
    get_top_with_transactions_last_activity 10 1000
      (some ⟨"1", some [⟨"0xb", "0xa", 5, 200⟩, ⟨"0xb", "0xc", 1, 100⟩]⟩)
      (fun x => if x = "0xa" then some 5 else if x = "0xb" then some 7
                else if x = "0xc" then some 1 else none)
      ⟨0, [], [], none, 0⟩ "0xb" 7 200 (by decide)
      (by with_unfolding_all decide)⟩

theorem collectHolders_mem (now : Nat) (balUp : String → Option Nat) :
    ∀ (l : List String) (acc : List (String × ℚ)) (st : TrackerState),
      (∀ p ∈ acc, p.1 ≠ zeroAddress ∧ 0 < p.2) →
      ∀ p ∈ (collectHolders now balUp l acc st).1, p.1 ≠ zeroAddress ∧ 0 < p.2
  | [], acc, st => by
      intro hacc p hp
      simp only [collectHolders] at hp
      exact hacc p hp
  | a :: rest, acc, st => by
      intro hacc p hp
      by_cases hz : a = zeroAddress
      · simp only [collectHolders, if_pos hz] at hp
        exact collectHolders_mem now balUp rest acc st hacc p hp
      · simp only [collectHolders, if_neg hz] at hp
        by_cases hpos : 0 < (get_balance now balUp a st).1
        · rw [if_pos hpos] at hp
          refine collectHolders_mem now balUp rest _ _ ?_ p hp
          intro q hq
          rcases List.mem_append.mp hq with h1 | h2
          · exact hacc q h1
          · have hqe : q = (a, (get_balance now balUp a st).1) := by simpa using h2
            rw [hqe]
            exact ⟨hz, hpos⟩
        · rw [if_neg hpos] at hp
          exact collectHolders_mem now balUp rest acc _ hacc p hp

/-- C2 (amended): `get_top_holders(n)` returns at most `n` entries, ordered
non-increasingly (weakly descending) by balance — strict descent cannot be
guaranteed because two holders may share the same balance — and an entry is
never the all-zero burn address and never has a resolved balance `≤ 0`. -/
theorem get_top_holders_spec (n now : Nat) (txUp : Option EtherscanResponse)
    (balUp : String → Option Nat) (s : TrackerState) :
    (get_top_holders n now txUp balUp s).1.length ≤ n ∧
    List.Sorted (fun x y : String × ℚ => y.2 ≤ x.2)
      (get_top_holders n now txUp balUp s).1 ∧
    ∀ p ∈ (get_top_holders n now txUp balUp s).1,
      p.1 ≠ zeroAddress ∧ 0 < p.2 := by
  unfold get_top_holders
  by_cases hemp : (get_token_transactions now txUp s).1 = []
  · rw [if_pos hemp]
    exact ⟨by simp, by simp, by simp⟩
  · rw [if_neg hemp]
    refine ⟨List.length_take_le _ _, ?_, ?_⟩
    · haveI : IsTotal (String × ℚ) (fun x y => y.2 ≤ x.2) :=
        ⟨fun a b => le_total b.2 a.2⟩
      haveI : IsTrans (String × ℚ) (fun x y => y.2 ≤ x.2) :=
        ⟨fun _ _ _ h1 h2 => le_trans h2 h1⟩
      exact (List.sorted_insertionSort _ _).sublist (List.take_sublist _ _)
    · intro p hp
      have hp2 : p ∈ (collectHolders now balUp
          (tx_addresses (get_token_transactions now txUp s).1) []
          (get_token_transactions now txUp s).2).1 :=
        (List.perm_insertionSort _ _).subset (List.mem_of_mem_take hp)
      exact collectHolders_mem now balUp _ [] _ (by simp) p hp2

/-- Witness for the amended C2 at a concrete instance. -/
theorem get_top_holders_spec_witness :
    (get_top_holders 2 5 none (fun _ => none) ⟨0, [], [], none, 0⟩).1.length ≤ 2 ∧
    List.Sorted (fun x y : String × ℚ => y.2 ≤ x.2)
      (get_top_holders 2 5 none (fun _ => none) ⟨0, [], [], none, 0⟩).1 ∧
    ∀ p ∈ (get_top_holders 2 5 none (fun _ => none) ⟨0, [], [], none, 0⟩).1,
      p.1 ≠ zeroAddress ∧ 0 < p.2 :=
  get_top_holders_spec 2 5 none (fun _ => none) ⟨0, [], [], none, 0⟩

/-- Counterexample to C2 as stated: with two holders of equal balance `5`,
`get_top_holders` returns them in weakly descending — not strictly
descending — order. -/
theorem get_top_holders_strict_descending_cex :
    (get_top_holders 10 1000
        (some ⟨"1", some [⟨"0xaaaa", "0xbbbb", 1, 100⟩,
                          ⟨"0xbbbb", "0xcccc", 1, 90⟩]⟩)
        (fun a => if a = "0xaaaa" then some 5 else if a = "0xbbbb" then some 5
                  else if a = "0xcccc" then some 0 else none)
        ⟨0, [], [], none, 0⟩).1
      = [("0xaaaa", (5 : ℚ)), ("0xbbbb", 5)] ∧
    ¬ List.Pairwise (fun x y : String × ℚ => y.2 < x.2)
        [("0xaaaa", (5 : ℚ)), ("0xbbbb", 5)] :=
  ⟨by with_unfolding_all decide, by with_unfolding_all decide⟩

theorem historyLoop_take (a : String) (st : TrackerState) :
    ∀ (l : List Tx) (acc : List HistoryEntry) (limit : Int),
      (acc.length : Int) < limit →
      historyLoop a limit st l acc =
        acc ++ ((l.filter (historyMatches a)).take (limit - acc.length).toNat).map
          (historyEntry a st)
  | [], acc, limit => by
      intro _
      simp [historyLoop]
  | tx :: rest, acc, limit => by
      intro h
      cases hm : historyMatches a tx with
      | false =>
          have hnb : ¬ (limit ≤ ((acc.length : Int))) := not_le.mpr h
          simp only [historyLoop, hm, Bool.false_eq_true, if_false, if_neg hnb]
          rw [historyLoop_take a st rest acc limit h]
          simp [List.filter_cons, hm]
      | true =>
          have hlen : (((acc ++ [historyEntry a st tx]).length : Nat) : Int)
              = (acc.length : Int) + 1 := by
            simp
          by_cases hle : limit ≤ ((acc ++ [historyEntry a st tx]).length : Int)
          · have hone : (limit - acc.length).toNat = 1 := by
              rw [hlen] at hle
              omega
            simp only [historyLoop, hm, if_true, if_pos hle]
            simp [List.filter_cons, hm, hone]
          · have hlt : (((acc ++ [historyEntry a st tx]).length : Nat) : Int) < limit :=
              not_le.mp hle
            simp only [historyLoop, hm, if_true, if_neg hle]
            rw [historyLoop_take a st rest (acc ++ [historyEntry a st tx]) limit hlt]
            have hk : (limit - acc.length).toNat
                = (limit - ((acc ++ [historyEntry a st tx]).length : Nat)).toNat + 1 := by
              rw [hlen] at hlt ⊢
              omega
            rw [hk]
            simp [List.filter_cons, hm, List.take_succ_cons]

/-- C6: for a positive `limit`, `get_address_history(address, limit)` answers
with exactly the first `limit` records of the fetched newest-first log whose
sender or recipient matches the queried address case-insensitively (all of
them when fewer exist), converted to history entries in log order. -/
theorem get_address_history_first_matches (now : Nat)
    (txUp : Option EtherscanResponse) (address : String) (limit : Int)
    (s : TrackerState) (hpos : 1 ≤ limit) :
    (get_address_history now txUp address limit s).1 =
      (((get_token_transactions now txUp s).1.filter
          (historyMatches (normalizeAddr address))).take limit.toNat).map
        (historyEntry (normalizeAddr address) (get_token_transactions now txUp s).2) := by
  show (historyLoop (normalizeAddr address) limit (get_token_transactions now txUp s).2
      (get_token_transactions now txUp s).1 []) = _
  rw [historyLoop_take (normalizeAddr address) (get_token_transactions now txUp s).2
      (get_token_transactions now txUp s).1 [] limit (by simpa using hpos)]
  simp

/-- Witness for C6 on a concrete log: with `limit = 1` the queried address
`"0xB"` matches both records case-insensitively, and the answer is the
converted first match. -/
theorem get_address_history_first_matches_witness :
    (1 : Int) ≤ 1 ∧
    (get_address_history 1000
        (some ⟨"1", some [⟨"0xb", "0xa", 5, 200⟩, ⟨"0xb", "0xc", 1, 100⟩]⟩)
        "0xB" 1 ⟨0, [], [], none, 0⟩).1 =
      (((get_token_transactions 1000
          (some ⟨"1", some [⟨"0xb", "0xa", 5, 200⟩, ⟨"0xb", "0xc", 1, 100⟩]⟩)
          ⟨0, [], [], none, 0⟩).1.filter (historyMatches (normalizeAddr "0xB"))).take
            (1 : Int).toNat).map
        (historyEntry (normalizeAddr "0xB")
          (get_token_transactions 1000
            (some ⟨"1", some [⟨"0xb", "0xa", 5, 200⟩, ⟨"0xb", "0xc", 1, 100⟩]⟩)
            ⟨0, [], [], none, 0⟩).2) :=
  ⟨by decide,
    get_address_history_first_matches 1000
      (some ⟨"1", some [⟨"0xb", "0xa", 5, 200⟩, ⟨"0xb", "0xc", 1, 100⟩]⟩)
      "0xB" 1 ⟨0, [], [], none, 0⟩ (by decide)⟩

/-- Counterexample to C5 as stated: `/address_history` with `limit = 0`
(non-positive) is answered with HTTP 200 and an empty list instead of being
rejected as a client error. -/
theorem address_history_nonpositive_limit_cex :
    (api_address_history "0xaa" 0 1000
        (some ⟨"1", some [⟨"0xb", "0xc", 5, 200⟩]⟩)
        ⟨0, [], [], none, 0⟩).1 = ApiResponse.ok [] ∧
    (api_address_history "0xaa" 0 1000
        (some ⟨"1", some [⟨"0xb", "0xc", 5, 200⟩]⟩)
        ⟨0, [], [], none, 0⟩).1.isOk = true :=
  ⟨by with_unfolding_all decide, by with_unfolding_all decide⟩

/-- C5 (amended): `/get_top` and `/get_top_with_transactions` reject every
`n ≤ 0` as a client error; `/address_history` performs no validation of
`limit` and answers non-positive limits with a normal 200 response. -/
theorem nonpositive_param_validation (n limit : Int) (now : Nat)
    (txUp : Option EtherscanResponse) (balUp : String → Option Nat)
    (address : String) (s : TrackerState) (hn : n ≤ 0) (_hl : limit ≤ 0) :
    (api_get_top n now txUp balUp s).1.isOk = false ∧
    (api_get_top_with_transactions n now txUp balUp s).1.isOk = false ∧
    (api_address_history address limit now txUp s).1.isOk = true := by
  refine ⟨?_, ?_, ?_⟩
  · simp [api_get_top, hn, ApiResponse.isOk]
  · simp [api_get_top_with_transactions, hn, ApiResponse.isOk]
  · simp [api_address_history, ApiResponse.isOk]

/-- Witness for the amended C5 at `n = 0`, `limit = -1`. -/
theorem nonpositive_param_validation_witness :
    (0 : Int) ≤ 0 ∧ (-1 : Int) ≤ 0 ∧
    ((api_get_top 0 5 none (fun _ => none) ⟨0, [], [], none, 0⟩).1.isOk = false ∧
     (api_get_top_with_transactions 0 5 none (fun _ => none)
        ⟨0, [], [], none, 0⟩).1.isOk = false ∧
     (api_address_history "0xaa" (-1) 5 none ⟨0, [], [], none, 0⟩).1.isOk = true) :=
  ⟨by decide, by decide,
    nonpositive_param_validation 0 (-1) 5 none (fun _ => none) "0xaa"
      ⟨0, [], [], none, 0⟩ (by decide) (by decide)⟩

/-- C4: every upstream-fetch failure inside a resolver is degraded locally
instead of propagating: a failed `balanceOf` call yields `0`, a failed or
malformed transaction-log fetch ( exception, `status != "1"`, or missing
`result` field) yields the empty list, and a failed token-info fetch yields
the empty dictionary. -/
theorem resolver_failures_degrade (now : Nat) (s : TrackerState)
    (balUp : String → Option Nat) (a : String) (d : EtherscanResponse) :
    (¬ (is_cache_valid now s ∧ (s.balanceCache.lookup (normalizeAddr a)).isSome) →
      balUp (normalizeAddr a) = none → get_balance now balUp a s = (0, s)) ∧
    (¬ (is_cache_valid now s ∧ s.txCache ≠ []) →
      get_token_transactions now none s = ([], s)) ∧
    (¬ (is_cache_valid now s ∧ s.txCache ≠ []) → d.status ≠ "1" →
      get_token_transactions now (some d) s = ([], s)) ∧
    (¬ (is_cache_valid now s ∧ s.txCache ≠ []) → d.result = none →
      get_token_transactions now (some d) s = ([], s)) ∧
    (¬ (is_cache_valid now s ∧ s.tokenInfoCache.isSome) →
      get_token_info now none s = (none, s)) := by
  refine ⟨?_, ?_, ?_, ?_, ?_⟩
  · intro hmiss hup
    simp only [get_balance, if_neg hmiss, hup]
  · intro hmiss
    simp only [get_token_transactions, if_neg hmiss]
  · intro hmiss hstat
    simp only [get_token_transactions, if_neg hmiss, if_neg hstat]
  · intro hmiss hres
    simp only [get_token_transactions, if_neg hmiss]
    split
    · rw [hres]
    · rfl
  · intro hmiss
    simp only [get_token_info, if_neg hmiss]

/-- Witness for C4 on a cold cache with failing upstreams. -/
theorem resolver_failures_degrade_witness :
    (¬ (is_cache_valid 400 (⟨6, [], [], none, 0⟩ : TrackerState) ∧
        (((⟨6, [], [], none, 0⟩ : TrackerState).balanceCache.lookup
          (normalizeAddr "0xAb")).isSome)) ∧
     (fun _ : String => (none : Option Nat)) (normalizeAddr "0xAb") = none ∧
     (⟨"0", some []⟩ : EtherscanResponse).status ≠ "1" ∧
     (⟨"0", some []⟩ : EtherscanResponse).result = some []) ∧
    get_balance 400 (fun _ => none) "0xAb" ⟨6, [], [], none, 0⟩
      = (0, ⟨6, [], [], none, 0⟩) ∧
    get_token_transactions 400 none ⟨6, [], [], none, 0⟩
      = ([], ⟨6, [], [], none, 0⟩) ∧
    get_token_transactions 400 (some ⟨"0", some []⟩) ⟨6, [], [], none, 0⟩
      = ([], ⟨6, [], [], none, 0⟩) ∧
    get_token_info 400 none ⟨6, [], [], none, 0⟩
      = (none, ⟨6, [], [], none, 0⟩) :=
  ⟨⟨by decide, by decide, by decide, by decide⟩,
    (resolver_failures_degrade 400 ⟨6, [], [], none, 0⟩ (fun _ => none) "0xAb"
      ⟨"0", some []⟩).1 (by decide) (by decide),
    (resolver_failures_degrade 400 ⟨6, [], [], none, 0⟩ (fun _ => none) "0xAb"
      ⟨"0", some []⟩).2.1 (by decide),
    (resolver_failures_degrade 400 ⟨6, [], [], none, 0⟩ (fun _ => none) "0xAb"
      ⟨"0", some []⟩).2.2.1 (by decide) (by decide),
    (resolver_failures_degrade 400 ⟨6, [], [], none, 0⟩ (fun _ => none) "0xAb"
      ⟨"0", some []⟩).2.2.2.2 (by decide)⟩

/-- C7: `get_balance` always answers a non-negative value (given the
invariant that every cached balance is non-negative, which every reachable
state satisfies since only formatted `uint256` values are stored); it never
changes `decimals`, which is fetched once at construction; and on a cache
miss with a successful upstream call the answer is the raw integer balance
divided by `10 ^ decimals`. -/
theorem get_balance_nonneg_and_scaling (now : Nat) (balUp : String → Option Nat)
    (a : String) (s : TrackerState)
    (hcache : ∀ k v, s.balanceCache.lookup k = some v → 0 ≤ v) :
    0 ≤ (get_balance now balUp a s).1 ∧
    (get_balance now balUp a s).2.decimals = s.decimals ∧
    (∀ raw, ¬ (is_cache_valid now s ∧
        (s.balanceCache.lookup (normalizeAddr a)).isSome) →
      balUp (normalizeAddr a) = some raw →
      (get_balance now balUp a s).1 = (raw : ℚ) / 10 ^ s.decimals) := by
  by_cases hc : (is_cache_valid now s ∧
      (s.balanceCache.lookup (normalizeAddr a)).isSome)
  · obtain ⟨hv, hsome⟩ := hc
    obtain ⟨v, hl⟩ := Option.isSome_iff_exists.mp hsome
    have hr : get_balance now balUp a s = (v, s) := by
      simp [get_balance, hv, hl]
    rw [hr]
    refine ⟨hcache _ _ hl, rfl, ?_⟩
    intro raw hmiss _
    exact absurd ⟨hv, hsome⟩ hmiss
  · simp only [get_balance, if_neg hc]
    cases hup : balUp (normalizeAddr a) with
    | some raw =>
        refine ⟨?_, rfl, ?_⟩
        · exact div_nonneg (by positivity) (by positivity)
        · intro raw2 _ hup2
          obtain rfl : raw = raw2 := by injection hup2
          rfl
    | none =>
        refine ⟨le_refl 0, rfl, ?_⟩
        intro raw2 _ hup2
        simp at hup2

/-- Witness for C7 on a cold cache with a successful upstream answer. -/
theorem get_balance_nonneg_and_scaling_witness :
    (∀ k v, ((⟨2, [], [], none, 0⟩ : TrackerState).balanceCache.lookup k)
        = some v → 0 ≤ v) ∧
    (0 ≤ (get_balance 400 (fun _ => some 125) "0xAb" ⟨2, [], [], none, 0⟩).1 ∧
     (get_balance 400 (fun _ => some 125) "0xAb" ⟨2, [], [], none, 0⟩).2.decimals = 2 ∧
     (∀ raw : Nat, ¬ (is_cache_valid 400 (⟨2, [], [], none, 0⟩ : TrackerState) ∧
        (((⟨2, [], [], none, 0⟩ : TrackerState).balanceCache.lookup
          (normalizeAddr "0xAb")).isSome)) →
      (fun _ : String => some 125) (normalizeAddr "0xAb") = some raw →
      (get_balance 400 (fun _ => some 125) "0xAb" ⟨2, [], [], none, 0⟩).1
        = (raw : ℚ) / 10 ^ 2)) :=
  ⟨fun k v h => by simp [List.lookup] at h,
    get_balance_nonneg_and_scaling 400 (fun _ => some 125) "0xAb"
      ⟨2, [], [], none, 0⟩ (fun k v h => by simp [List.lookup] at h)⟩

/-- C8: `get_token_stats` never evaluates the average through a division by
zero — the `average_balance` field is always a defined value — and with zero
qualifying holders it is defined as `0`. -/
theorem get_token_stats_average_safe (now : Nat) (infoUp : Option TokenInfoRaw)
    (txUp : Option EtherscanResponse) (balUp : String → Option Nat)
    (s : TrackerState) :
    ((get_token_stats now infoUp txUp balUp s).1.average_balance).isSome = true ∧
    ((get_token_stats now infoUp txUp balUp s).1.unique_holders = 0 →
      (get_token_stats now infoUp txUp balUp s).1.average_balance = some 0) := by
  unfold get_token_stats
  dsimp only
  constructor
  · by_cases hu : 0 < (get_top_holders 100 now txUp balUp
        (get_token_info now infoUp s).2).1.length
    · rw [if_pos hu]
      rw [checkedDiv, if_neg (by positivity)]
      rfl
    · rw [if_neg hu]
      rfl
  · intro hz
    rw [if_neg (by omega)]

/-- Witness for C8 with a failing transaction-log upstream, so that zero
qualifying holders are found. -/
theorem get_token_stats_average_safe_witness :
    ((get_token_stats 7 none none (fun _ => none)
        ⟨0, [], [], none, 0⟩).1.average_balance).isSome = true ∧
    ((get_token_stats 7 none none (fun _ => none)
        ⟨0, [], [], none, 0⟩).1.unique_holders = 0 →
      (get_token_stats 7 none none (fun _ => none)
        ⟨0, [], [], none, 0⟩).1.average_balance = some 0) :=
  get_token_stats_average_safe 7 none none (fun _ => none) ⟨0, [], [], none, 0⟩

/-- Counterexample to C1 as stated: the balance entry for `"0xa"` is stored
by a fetch at time `0`; a fetch for the unrelated address `"0xb"` at time
`250` resets the single shared time-stamp; at time `400` — a full
`400 ≥ cache_lifetime` after the entry's own refresh — `get_balance "0xa"`
still answers the value fetched at time `0` straight from the cache with no
state change, ignoring the fresh upstream answer `9`; per-entry freshness
would have demanded a refetch. -/
theorem get_balance_per_entry_freshness_cex :
    (get_balance 400 (fun _ => some 9) "0xa"
        (get_balance 250 (fun _ => some 3) "0xb"
          (get_balance 0 (fun _ => some 7) "0xa" ⟨0, [], [], none, 0⟩).2).2).1
      = 7 ∧
    (get_balance 400 (fun _ => some 9) "0xa"
        (get_balance 250 (fun _ => some 3) "0xb"
          (get_balance 0 (fun _ => some 7) "0xa" ⟨0, [], [], none, 0⟩).2).2).2
      = (get_balance 250 (fun _ => some 3) "0xb"
          (get_balance 0 (fun _ => some 7) "0xa" ⟨0, [], [], none, 0⟩).2).2 ∧
    (get_balance 0 (fun _ => some 7) "0xa" ⟨0, [], [], none, 0⟩).1 = 7 ∧
    cache_lifetime ≤ 400 - 0 ∧
    (7 : ℚ) ≠ 9 :=
  ⟨by with_unfolding_all decide, by with_unfolding_all decide,
   by with_unfolding_all decide, by decide, by with_unfolding_all decide⟩

/-- C1 (amended): freshness is tracker-wide, not per entry: each cached
category serves its stored entry exactly when the single shared time-stamp
is fresh and the entry is present (the address is in the balance cache / the
stored log is non-empty / token info is stored); otherwise the get invokes
the underlying fetch and, on success, stores the result, resets the shared
time-stamp and returns the fetched value. -/
theorem cache_shared_freshness_policy (now : Nat) (s : TrackerState)
    (balUp : String → Option Nat) (a : String)
    (txUp : Option EtherscanResponse) (infoUp : Option TokenInfoRaw) :
    (∀ v, is_cache_valid now s = true →
        s.balanceCache.lookup (normalizeAddr a) = some v →
        get_balance now balUp a s = (v, s)) ∧
    (is_cache_valid now s = true → s.txCache ≠ [] →
        get_token_transactions now txUp s = (s.txCache, s)) ∧
    (∀ info, is_cache_valid now s = true → s.tokenInfoCache = some info →
        get_token_info now infoUp s = (some info, s)) ∧
    (∀ raw, ¬ (is_cache_valid now s ∧
          (s.balanceCache.lookup (normalizeAddr a)).isSome) →
        balUp (normalizeAddr a) = some raw →
        get_balance now balUp a s =
          (format_balance s raw,
           { s with balanceCache := cacheInsert (normalizeAddr a)
                      (format_balance s raw) s.balanceCache,
                    lastCacheUpdate := now })) ∧
    (∀ d txs, ¬ (is_cache_valid now s ∧ s.txCache ≠ []) → txUp = some d →
        d.status = "1" → d.result = some txs →
        get_token_transactions now txUp s =
          (txs, { s with txCache := txs, lastCacheUpdate := now })) ∧
    (∀ ri, ¬ (is_cache_valid now s ∧ s.tokenInfoCache.isSome) →
        infoUp = some ri →
        get_token_info now infoUp s =
          (some ⟨ri.symbol, ri.name, format_balance s ri.totalSupply⟩,
           { s with tokenInfoCache := some ⟨ri.symbol, ri.name,
               format_balance s ri.totalSupply⟩, lastCacheUpdate := now })) := by
  refine ⟨?_, ?_, ?_, ?_, ?_, ?_⟩
  · intro v hv hl
    simp [get_balance, hv, hl]
  · intro hv htx
    simp [get_token_transactions, hv, htx]
  · intro info hv hinfo
    simp [get_token_info, hv, hinfo]
  · intro raw hmiss hup
    simp only [get_balance, if_neg hmiss, hup]
  · intro d txs hmiss hd hstat hres
    subst hd
    simp only [get_token_transactions, if_neg hmiss]
    rw [if_pos hstat, hres]
  · intro ri hmiss hri
    subst hri
    simp only [get_token_info, if_neg hmiss]

/-- Witness for the amended C1: a warm tracker at time `150` serves all
three categories from cache; a cold tracker at time `400` fetches, stores
and stamps. -/
theorem cache_shared_freshness_policy_witness :
    (is_cache_valid 150 (⟨0, [("0xa", 7)], [⟨"0xa", "0xb", 1, 50⟩],
        some ⟨"T", "Tok", 9⟩, 100⟩ : TrackerState) = true ∧
     (⟨0, [("0xa", 7)], [⟨"0xa", "0xb", 1, 50⟩], some ⟨"T", "Tok", 9⟩,
        100⟩ : TrackerState).balanceCache.lookup (normalizeAddr "0xA") = some 7 ∧
     (⟨0, [("0xa", 7)], [⟨"0xa", "0xb", 1, 50⟩], some ⟨"T", "Tok", 9⟩,
        100⟩ : TrackerState).txCache ≠ [] ∧
     ¬ (is_cache_valid 400 (⟨0, [], [], none, 0⟩ : TrackerState) ∧
        (((⟨0, [], [], none, 0⟩ : TrackerState).balanceCache.lookup
          (normalizeAddr "0xA")).isSome))) ∧
    get_balance 150 (fun _ => some 3) "0xA"
      ⟨0, [("0xa", 7)], [⟨"0xa", "0xb", 1, 50⟩], some ⟨"T", "Tok", 9⟩, 100⟩
      = (7, ⟨0, [("0xa", 7)], [⟨"0xa", "0xb", 1, 50⟩], some ⟨"T", "Tok", 9⟩, 100⟩) ∧
    get_token_transactions 150 none
      ⟨0, [("0xa", 7)], [⟨"0xa", "0xb", 1, 50⟩], some ⟨"T", "Tok", 9⟩, 100⟩
      = ([⟨"0xa", "0xb", 1, 50⟩],
         ⟨0, [("0xa", 7)], [⟨"0xa", "0xb", 1, 50⟩], some ⟨"T", "Tok", 9⟩, 100⟩) ∧
    get_token_info 150 none
      ⟨0, [("0xa", 7)], [⟨"0xa", "0xb", 1, 50⟩], some ⟨"T", "Tok", 9⟩, 100⟩
      = (some ⟨"T", "Tok", 9⟩,
         ⟨0, [("0xa", 7)], [⟨"0xa", "0xb", 1, 50⟩], some ⟨"T", "Tok", 9⟩, 100⟩) ∧
    get_balance 400 (fun _ => some 3) "0xA" ⟨0, [], [], none, 0⟩
      = (format_balance ⟨0, [], [], none, 0⟩ 3,
         ⟨0, cacheInsert (normalizeAddr "0xA")
              (format_balance ⟨0, [], [], none, 0⟩ 3) [], [], none, 400⟩) ∧
    get_token_transactions 400 (some ⟨"1", some [⟨"0xc", "0xd", 2, 60⟩]⟩)
      ⟨0, [], [], none, 0⟩
      = ([⟨"0xc", "0xd", 2, 60⟩],
         ⟨0, [], [⟨"0xc", "0xd", 2, 60⟩], none, 400⟩) ∧
    get_token_info 400 (some ⟨"S", "Nam", 4⟩) ⟨0, [], [], none, 0⟩
      = (some ⟨"S", "Nam", format_balance ⟨0, [], [], none, 0⟩ 4⟩,
         ⟨0, [], [], some ⟨"S", "Nam",
            format_balance ⟨0, [], [], none, 0⟩ 4⟩, 400⟩) :=
  ⟨⟨by decide, by with_unfolding_all decide, by decide, by decide⟩,
   (cache_shared_freshness_policy 150
      ⟨0, [("0xa", 7)], [⟨"0xa", "0xb", 1, 50⟩], some ⟨"T", "Tok", 9⟩, 100⟩
      (fun _ => some 3) "0xA" none none).1 7 (by decide)
      (by with_unfolding_all decide),
   (cache_shared_freshness_policy 150
      ⟨0, [("0xa", 7)], [⟨"0xa", "0xb", 1, 50⟩], some ⟨"T", "Tok", 9⟩, 100⟩
      (fun _ => some 3) "0xA" none none).2.1 (by decide) (by decide),
   (cache_shared_freshness_policy 150
      ⟨0, [("0xa", 7)], [⟨"0xa", "0xb", 1, 50⟩], some ⟨"T", "Tok", 9⟩, 100⟩
      (fun _ => some 3) "0xA" none none).2.2.1 ⟨"T", "Tok", 9⟩ (by decide)
      (by with_unfolding_all decide),
   (cache_shared_freshness_policy 400 ⟨0, [], [], none, 0⟩
      (fun _ => some 3) "0xA" (some ⟨"1", some [⟨"0xc", "0xd", 2, 60⟩]⟩)
      (some ⟨"S", "Nam", 4⟩)).2.2.2.1 3 (by decide) (by decide),
   (cache_shared_freshness_policy 400 ⟨0, [], [], none, 0⟩
      (fun _ => some 3) "0xA" (some ⟨"1", some [⟨"0xc", "0xd", 2, 60⟩]⟩)
      (some ⟨"S", "Nam", 4⟩)).2.2.2.2.1 ⟨"1", some [⟨"0xc", "0xd", 2, 60⟩]⟩
      [⟨"0xc", "0xd", 2, 60⟩] (by decide) rfl (by decide) (by decide),
   (cache_shared_freshness_policy 400 ⟨0, [], [], none, 0⟩
      (fun _ => some 3) "0xA" (some ⟨"1", some [⟨"0xc", "0xd", 2, 60⟩]⟩)
      (some ⟨"S", "Nam", 4⟩)).2.2.2.2.2 ⟨"S", "Nam", 4⟩ (by decide) rfl⟩

/-- C9: all cached categories share one last-update time-stamp: a successful
balance fetch at time `t` resets it while leaving the other categories'
stored entries untouched, and a read of any other category within
`cache_lifetime` of `t` then serves its old entry as fresh — no matter how
long before the entry itself was stored. -/
theorem shared_timestamp_cross_category (t tp : Nat) (s : TrackerState)
    (balUp : String → Option Nat) (a : String) (raw : Nat)
    (infoUp : Option TokenInfoRaw) (txUp : Option EtherscanResponse)
    (hstale : is_cache_valid t s = false)
    (hup : balUp (normalizeAddr a) = some raw)
    (hfresh : tp - t < cache_lifetime)
    (hinfo : s.tokenInfoCache.isSome = true)
    (htx : s.txCache ≠ []) :
    (get_balance t balUp a s).2.lastCacheUpdate = t ∧
    (get_balance t balUp a s).2.tokenInfoCache = s.tokenInfoCache ∧
    (get_balance t balUp a s).2.txCache = s.txCache ∧
    get_token_info tp infoUp (get_balance t balUp a s).2
      = (s.tokenInfoCache, (get_balance t balUp a s).2) ∧
    get_token_transactions tp txUp (get_balance t balUp a s).2
      = (s.txCache, (get_balance t balUp a s).2) := by
  have hmiss : ¬ (is_cache_valid t s ∧
      (s.balanceCache.lookup (normalizeAddr a)).isSome) := by
    simp [hstale]
  have hr : get_balance t balUp a s =
      (format_balance s raw,
       { s with balanceCache := cacheInsert (normalizeAddr a)
                  (format_balance s raw) s.balanceCache,
                lastCacheUpdate := t }) := by
    simp only [get_balance, if_neg hmiss, hup]
  rw [hr]
  have hv : is_cache_valid tp
      ({ s with balanceCache := cacheInsert (normalizeAddr a)
                  (format_balance s raw) s.balanceCache,
                lastCacheUpdate := t } : TrackerState) = true := by
    simp only [is_cache_valid]
    exact decide_eq_true hfresh
  refine ⟨rfl, rfl, rfl, ?_, ?_⟩
  · simp [get_token_info, hv, hinfo]
  · simp [get_token_transactions, hv, htx]

/-- Witness for C9: token info stored at time `0` is still served at time
`649`, because a balance fetch at `350` reset the shared time-stamp. -/
theorem shared_timestamp_cross_category_witness :
    (is_cache_valid 350 (⟨0, [], [⟨"0xa", "0xb", 1, 10⟩], some ⟨"T", "Tok", 9⟩,
        0⟩ : TrackerState) = false ∧
     (fun _ : String => some 5) (normalizeAddr "0xA") = some 5 ∧
     649 - 350 < cache_lifetime ∧
     ((⟨0, [], [⟨"0xa", "0xb", 1, 10⟩], some ⟨"T", "Tok", 9⟩,
        0⟩ : TrackerState).tokenInfoCache.isSome = true) ∧
     (⟨0, [], [⟨"0xa", "0xb", 1, 10⟩], some ⟨"T", "Tok", 9⟩,
        0⟩ : TrackerState).txCache ≠ []) ∧
    ((get_balance 350 (fun _ => some 5) "0xA"
        ⟨0, [], [⟨"0xa", "0xb", 1, 10⟩], some ⟨"T", "Tok", 9⟩, 0⟩).2.lastCacheUpdate
        = 350 ∧
     (get_balance 350 (fun _ => some 5) "0xA"
        ⟨0, [], [⟨"0xa", "0xb", 1, 10⟩], some ⟨"T", "Tok", 9⟩, 0⟩).2.tokenInfoCache
        = some ⟨"T", "Tok", 9⟩ ∧
     (get_balance 350 (fun _ => some 5) "0xA"
        ⟨0, [], [⟨"0xa", "0xb", 1, 10⟩], some ⟨"T", "Tok", 9⟩, 0⟩).2.txCache
        = [⟨"0xa", "0xb", 1, 10⟩] ∧
     get_token_info 649 none (get_balance 350 (fun _ => some 5) "0xA"
        ⟨0, [], [⟨"0xa", "0xb", 1, 10⟩], some ⟨"T", "Tok", 9⟩, 0⟩).2
        = (some ⟨"T", "Tok", 9⟩,
           (get_balance 350 (fun _ => some 5) "0xA"
             ⟨0, [], [⟨"0xa", "0xb", 1, 10⟩], some ⟨"T", "Tok", 9⟩, 0⟩).2) ∧
     get_token_transactions 649 none (get_balance 350 (fun _ => some 5) "0xA"
        ⟨0, [], [⟨"0xa", "0xb", 1, 10⟩], some ⟨"T", "Tok", 9⟩, 0⟩).2
        = ([⟨"0xa", "0xb", 1, 10⟩],
           (get_balance 350 (fun _ => some 5) "0xA"
             ⟨0, [], [⟨"0xa", "0xb", 1, 10⟩], some ⟨"T", "Tok", 9⟩, 0⟩).2)) :=
  ⟨⟨by decide, by decide, by decide, by decide, by decide⟩,
    shared_timestamp_cross_category 350 649
      ⟨0, [], [⟨"0xa", "0xb", 1, 10⟩], some ⟨"T", "Tok", 9⟩, 0⟩
      (fun _ => some 5) "0xA" 5 none none (by decide) (by decide) (by decide)
      (by decide) (by decide)⟩

/-- C10: a transaction-log cache hit requires a truthy (non-empty) stored
log: with an empty stored log the fetcher consults the upstream provider
again even while the shared time-stamp is within the TTL — a successful
answer is stored and returned, a failing one yields the empty list. -/
theorem tx_cache_empty_refetch (now : Nat) (s : TrackerState)
    (d : EtherscanResponse) (txs : List Tx)
    (hempty : s.txCache = [])
    (_hvalid : is_cache_valid now s = true)
    (hstat : d.status = "1") (hres : d.result = some txs) :
    get_token_transactions now (some d) s
      = (txs, { s with txCache := txs, lastCacheUpdate := now }) ∧
    get_token_transactions now none s = ([], s) := by
  have hmiss : ¬ (is_cache_valid now s ∧ s.txCache ≠ []) := by simp [hempty]
  constructor
  · simp only [get_token_transactions, if_neg hmiss]
    rw [if_pos hstat, hres]
  · simp only [get_token_transactions, if_neg hmiss]

/-- Witness for C10: a valid time-stamp with an empty stored log still
triggers an upstream fetch, whose answer is stored. -/
theorem tx_cache_empty_refetch_witness :
    ((⟨0, [], [], none, 100⟩ : TrackerState).txCache = [] ∧
     is_cache_valid 150 (⟨0, [], [], none, 100⟩ : TrackerState) = true ∧
     (⟨"1", some [⟨"0xa", "0xb", 1, 50⟩]⟩ : EtherscanResponse).status = "1" ∧
     (⟨"1", some [⟨"0xa", "0xb", 1, 50⟩]⟩ : EtherscanResponse).result
        = some [⟨"0xa", "0xb", 1, 50⟩]) ∧
    (get_token_transactions 150 (some ⟨"1", some [⟨"0xa", "0xb", 1, 50⟩]⟩)
        ⟨0, [], [], none, 100⟩
      = ([⟨"0xa", "0xb", 1, 50⟩], ⟨0, [], [⟨"0xa", "0xb", 1, 50⟩], none, 150⟩) ∧
     get_token_transactions 150 none ⟨0, [], [], none, 100⟩
      = ([], ⟨0, [], [], none, 100⟩)) :=
  ⟨⟨by decide, by decide, by decide, by decide⟩,
    tx_cache_empty_refetch 150 ⟨0, [], [], none, 100⟩
      ⟨"1", some [⟨"0xa", "0xb", 1, 50⟩]⟩ [⟨"0xa", "0xb", 1, 50⟩]
      (by decide) (by decide) (by decide) (by decide)⟩

end TokenTracker
